import Mathlib

/-!
Shallow embedding of the library management service in `src/lms.py`.

The three Supabase tables (`members`, `books`, `borrow_records`) are modelled
as lists of records inside a `DB` state.  Each service function of the Python
module becomes a pure function from `DB` to a result paired with the new `DB`.
Timestamps are modelled as integers (the store compares ISO timestamps
chronologically); `datetime.now()` becomes an explicit `now` argument, and the
store filling `borrow_date` on insert is modelled by stamping `now` on the
inserted record.  `record_id` generation by the store is modelled with a
`nextRecordId` counter.  the Python `sorted(..., reverse=True)` call (a stable sort)
is modelled by `List.insertionSort` with the reversed comparison, which is the
unique stable descending sort.  An uncaught Python exception (the unguarded
`data[0]` in `top_borrowed_books`) is modelled by an `Option` result being
`none`.
-/

structure Member where
  member_id : Nat
  name : String
  email : String
deriving DecidableEq, Repr

structure Book where
  book_id : Nat
  title : String
  author : String
  category : String
  stock : Int
deriving DecidableEq, Repr

structure BorrowRecord where
  record_id : Nat
  member_id : Nat
  book_id : Nat
  borrow_date : Int
  return_date : Option Int
deriving DecidableEq, Repr

structure DB where
  members : List Member
  books : List Book
  records : List BorrowRecord
  nextRecordId : Nat
deriving DecidableEq, Repr

/-- Result of `delete_member` / `delete_book`: the Python functions return
either a `Cannot delete` string or the list of deleted rows. -/
inductive DelResult (α : Type) where
  | blocked (msg : String)
  | deleted (rows : List α)
deriving DecidableEq, Repr

/-- Embedding of `delete_member(member_id)` from `src/lms.py`: refuses when an active
(`return_date` null) borrow record references the member, else deletes the
matching member rows. -/
def delete_member (mid : Nat) (db : DB) : DelResult Member × DB :=
  match db.records.filter (fun r => r.member_id == mid && r.return_date.isNone) with
  | _ :: _ =>
    (.blocked ("Cannot delete: member " ++ toString mid ++ " has borrowed books."), db)
  | [] =>
    (.deleted (db.members.filter (fun m => m.member_id == mid)),
     { db with members := db.members.filter (fun m => !(m.member_id == mid)) })

/-- Embedding of `delete_book(book_id)` from `src/lms.py`: refuses when an active borrow
record references the book, else deletes the matching book rows. -/
def delete_book (bid : Nat) (db : DB) : DelResult Book × DB :=
  match db.records.filter (fun r => r.book_id == bid && r.return_date.isNone) with
  | _ :: _ =>
    (.blocked ("Cannot delete: book " ++ toString bid ++ " is currently borrowed."), db)
  | [] =>
    (.deleted (db.books.filter (fun b => b.book_id == bid)),
     { db with books := db.books.filter (fun b => !(b.book_id == bid)) })

/-- Embedding of `update_book_stock(book_id, stock)` from `src/lms.py`: sets the stock of
every book row matching `book_id` to exactly `stock`, with no validation, and
returns the affected rows. -/
def update_book_stock (bid : Nat) (stock : Int) (db : DB) : List Book × DB :=
  let books' := db.books.map (fun b => if b.book_id == bid then { b with stock := stock } else b)
  (books'.filter (fun b => b.book_id == bid), { db with books := books' })

/-- Embedding of `borrow_book(member_id, book_id)` from `src/lms.py`: fetch the book rows,
fail on empty, fail when the stock of the first row is `< 1`, otherwise set the
stock of matching rows to (stock of the first row − 1) and insert a fresh active
borrow record. -/
def borrow_book (mid bid : Nat) (now : Int) (db : DB) : String × DB :=
  match db.books.filter (fun b => b.book_id == bid) with
  | [] => ("Book not found.", db)
  | b :: _ =>
    if b.stock < 1 then
      ("Book not available.", db)
    else
      ("Book " ++ toString bid ++ " borrowed by member " ++ toString mid ++ ".",
       { db with
         books := db.books.map (fun c => if c.book_id == bid then { c with stock := b.stock - 1 } else c),
         records := db.records ++
           [{ record_id := db.nextRecordId, member_id := mid, book_id := bid,
              borrow_date := now, return_date := none }],
         nextRecordId := db.nextRecordId + 1 })

/-- Embedding of `return_book(member_id, book_id)` from `src/lms.py`: look up the active
borrow records for the pair, fail on empty, otherwise stamp `return_date` on
the first one, then fetch the book and set the stock of matching rows to (stock
of the first row + 1).  The unguarded `data[0]` on the book fetch is inside the
`try`, so a missing book yields the `Error:` string after the record was
already stamped. -/
def return_book (mid bid : Nat) (now : Int) (db : DB) : String × DB :=
  match db.records.filter (fun r => r.member_id == mid && r.book_id == bid && r.return_date.isNone) with
  | [] => ("No active borrow record found.", db)
  | r :: _ =>
    let records' := db.records.map
      (fun q => if q.record_id == r.record_id then { q with return_date := some now } else q)
    match db.books.filter (fun b => b.book_id == bid) with
    | [] => ("Error: list index out of range", { db with records := records' })
    | b :: _ =>
      ("Book " ++ toString bid ++ " returned by member " ++ toString mid ++ ".",
       { db with
         records := records',
         books := db.books.map (fun c => if c.book_id == bid then { c with stock := b.stock + 1 } else c) })

/-- One step of Python dict counting: `borrow_counts[k] = borrow_counts.get(k, 0) + 1`,
on an association list kept in first-seen key order. -/
def bump : List (Nat × Nat) → Nat → List (Nat × Nat)
  | [], k => [(k, 1)]
  | (k', c) :: rest, k =>
    if k' == k then (k', c + 1) :: rest else (k', c) :: bump rest k

/-- The `borrow_counts` dict of `top_borrowed_books`: counts of all borrow
records grouped by `book_id`, in first-seen order. -/
def countsOf (recs : List BorrowRecord) : List (Nat × Nat) :=
  recs.foldl (fun acc r => bump acc r.book_id) []

/-- Comparison used to model `sorted(borrow_counts, key=..., reverse=True)`:
higher count first; a stable sort under this relation is exactly the stable
descending sort of Python. -/
def cntGE (p q : Nat × Nat) : Prop := q.2 ≤ p.2

instance : DecidableRel cntGE := fun p q => inferInstanceAs (Decidable (q.2 ≤ p.2))

instance : IsTotal (Nat × Nat) cntGE := ⟨fun p q => le_total q.2 p.2⟩

instance : IsTrans (Nat × Nat) cntGE := ⟨fun _ _ _ h h' => le_trans h' h⟩

/-- The fetch loop at the end of `top_borrowed_books`: for each ranked
`(book_id, count)` pair, `data[0]` on the book rows — an empty result is an
uncaught `IndexError`, modelled as `none`. -/
def fetchBooks (db : DB) : List (Nat × Nat) → Option (List (Book × Nat))
  | [] => some []
  | (bid, c) :: rest =>
    match db.books.find? (fun b => b.book_id == bid) with
    | none => none
    | some b =>
      match fetchBooks db rest with
      | none => none
      | some tl => some ((b, c) :: tl)

/-- Embedding of `top_borrowed_books(limit)` from `src/lms.py`: count all borrow records by
`book_id`, stable-sort descending by count, take `limit`, then fetch each
row of the book and attach its count; `none` models the uncaught `IndexError` on a
dangling `book_id`. -/
def top_borrowed_books (limit : Nat) (db : DB) : Option (List (Book × Nat)) :=
  fetchBooks db (((countsOf db.records).insertionSort cntGE).take limit)

/-- Embedding of `overdue_members(days)` from `src/lms.py`: active borrow records whose
`borrow_date` is strictly before `now − days`, projected to
`(member_id, book_id, borrow_date)`. -/
def overdue_members (days : Int) (now : Int) (db : DB) : List (Nat × Nat × Int) :=
  (db.records.filter (fun r => r.return_date.isNone && decide (r.borrow_date < now - days))).map
    (fun r => (r.member_id, r.book_id, r.borrow_date))

/-- A borrow or return call, with the wall-clock time of the call. -/
inductive Op where
  | borrow (mid bid : Nat) (now : Int)
  | ret (mid bid : Nat) (now : Int)
deriving DecidableEq, Repr

/-- Apply one loan-service call, discarding its message. -/
def applyOp (db : DB) : Op → DB
  | .borrow mid bid now => (borrow_book mid bid now db).2
  | .ret mid bid now => (return_book mid bid now db).2

/-- Apply a sequence of loan-service calls. -/
def applyOps (ops : List Op) (db : DB) : DB :=
  ops.foldl applyOp db

/-- Observer for the counting dict: the count stored for key `k`, 0 when
absent. -/
def cnt : List (Nat × Nat) → Nat → Nat
  | [], _ => 0
  | (k', c) :: rest, k => if k' == k then c else cnt rest k

/-! Concrete fixtures used by witnesses and counterexamples. -/

def bkDune : Book := { book_id := 1, title := "Dune", author := "Herbert", category := "SciFi", stock := 0 }

def bkHobbit : Book := { book_id := 2, title := "Hobbit", author := "Tolkien", category := "Fantasy", stock := 3 }

def dbC2 : DB := { members := [], books := [bkDune], records := [], nextRecordId := 1 }

def dbC4 : DB :=
  { members := [], books := [bkHobbit],
    records := [{ record_id := 5, member_id := 1, book_id := 2, borrow_date := 0, return_date := some 3 }],
    nextRecordId := 6 }

def dbC10 : DB := { members := [], books := [bkHobbit], records := [], nextRecordId := 1 }

def mAlice : Member := { member_id := 1, name := "Alice", email := "alice@example.com" }

/-- A state with one active loan of book 2 by member 1. -/
def dbC5 : DB :=
  { members := [mAlice], books := [bkHobbit],
    records := [{ record_id := 5, member_id := 1, book_id := 2, borrow_date := 0, return_date := none }],
    nextRecordId := 6 }

/-- The same state after the loan was returned. -/
def dbC5ret : DB :=
  { members := [mAlice], books := [bkHobbit],
    records := [{ record_id := 5, member_id := 1, book_id := 2, borrow_date := 0, return_date := some 3 }],
    nextRecordId := 6 }

def bkC3 : Book := { book_id := 3, title := "Foundation", author := "Asimov", category := "SciFi", stock := 2 }

/-- A state realising the example of the spec: book 1 borrowed 3 times, book 2
once, book 3 twice (first seen in the order 1, 2, 3), with a mix of active
and returned records. -/
def dbC6 : DB :=
  { members := [mAlice], books := [bkDune, bkHobbit, bkC3],
    records :=
      [{ record_id := 1, member_id := 1, book_id := 1, borrow_date := 0, return_date := some 1 },
       { record_id := 2, member_id := 1, book_id := 2, borrow_date := 1, return_date := none },
       { record_id := 3, member_id := 2, book_id := 3, borrow_date := 2, return_date := some 4 },
       { record_id := 4, member_id := 2, book_id := 1, borrow_date := 3, return_date := none },
       { record_id := 5, member_id := 3, book_id := 3, borrow_date := 5, return_date := none },
       { record_id := 6, member_id := 3, book_id := 1, borrow_date := 6, return_date := some 8 }],
    nextRecordId := 7 }

/-- A state with one borrow record whose book_id 9 matches no book row. -/
def dbC7 : DB :=
  { members := [], books := [],
    records := [{ record_id := 1, member_id := 1, book_id := 9, borrow_date := 0, return_date := none }],
    nextRecordId := 2 }

/-- A state with one fresh active loan (borrow_date 5) and one returned
record, seen from `now = 10`. -/
def dbC8 : DB :=
  { members := [], books := [bkHobbit],
    records := [{ record_id := 1, member_id := 1, book_id := 2, borrow_date := 5, return_date := none },
                { record_id := 2, member_id := 3, book_id := 2, borrow_date := 0, return_date := some 4 }],
    nextRecordId := 3 }

/-- Case analysis of the book table after `borrow_book`: either untouched (the
lookup or the stock check failed), or every matching row was set to the first
stock of the first matching row minus one, which the guard had checked to be at least 1. -/
lemma borrow_book_books_cases (mid bid : Nat) (now : Int) (db : DB) :
    (borrow_book mid bid now db).2.books = db.books ∨
    ∃ b l, db.books.filter (fun c => c.book_id == bid) = b :: l ∧ ¬ b.stock < 1 ∧
      (borrow_book mid bid now db).2.books =
        db.books.map (fun c => if c.book_id == bid then { c with stock := b.stock - 1 } else c) := by
  unfold borrow_book
  split
  · exact Or.inl rfl
  next b l hfb =>
    split
    · exact Or.inl rfl
    next hs => exact Or.inr ⟨b, l, hfb, hs, rfl⟩

/-- Case analysis of the book table after `return_book`: either untouched, or
every matching row was set to the stock of the first matching row plus one. -/
lemma return_book_books_cases (mid bid : Nat) (now : Int) (db : DB) :
    (return_book mid bid now db).2.books = db.books ∨
    ∃ b l, db.books.filter (fun c => c.book_id == bid) = b :: l ∧
      (return_book mid bid now db).2.books =
        db.books.map (fun c => if c.book_id == bid then { c with stock := b.stock + 1 } else c) := by
  unfold return_book
  split
  · exact Or.inl rfl
  · split
    · exact Or.inl rfl
    next b l hfb => exact Or.inr ⟨b, l, hfb, rfl⟩

/-- A single borrow or return call preserves nonnegativity of every stock. -/
lemma stock_nonneg_applyOp (db : DB) (op : Op) (h : ∀ b ∈ db.books, 0 ≤ b.stock) :
    ∀ b ∈ (applyOp db op).books, 0 ≤ b.stock := by
  cases op with
  | borrow mid bid now =>
    intro c hc
    simp only [applyOp] at hc
    rcases borrow_book_books_cases mid bid now db with heq | ⟨b, l, hfb, hs, heq⟩
    · rw [heq] at hc; exact h c hc
    · rw [heq] at hc
      obtain ⟨d, hd, rfl⟩ := List.mem_map.mp hc
      have hb : b ∈ db.books := List.mem_of_mem_filter (hfb ▸ List.mem_cons_self b l)
      have h1 : 1 ≤ b.stock := not_lt.mp hs
      by_cases hid : (d.book_id == bid) = true
      · rw [if_pos hid]; show 0 ≤ b.stock - 1; omega
      · rw [if_neg hid]; exact h d hd
  | ret mid bid now =>
    intro c hc
    simp only [applyOp] at hc
    rcases return_book_books_cases mid bid now db with heq | ⟨b, l, hfb, heq⟩
    · rw [heq] at hc; exact h c hc
    · rw [heq] at hc
      obtain ⟨d, hd, rfl⟩ := List.mem_map.mp hc
      have hb : b ∈ db.books := List.mem_of_mem_filter (hfb ▸ List.mem_cons_self b l)
      have h0 : 0 ≤ b.stock := h b hb
      by_cases hid : (d.book_id == bid) = true
      · rw [if_pos hid]; show 0 ≤ b.stock + 1; omega
      · rw [if_neg hid]; exact h d hd

/-- C1: starting from any state whose books all have nonnegative stock, after
any sequence of `borrow_book` / `return_book` calls (each of which mutates
only when its own precondition check passed) the stock of every book is still
nonnegative. -/
theorem stock_nonneg_invariant (ops : List Op) (db : DB)
    (h : ∀ b ∈ db.books, 0 ≤ b.stock) :
    ∀ b ∈ (applyOps ops db).books, 0 ≤ b.stock := by
  induction ops generalizing db with
  | nil => exact h
  | cons op rest ih =>
    simp only [applyOps, List.foldl_cons]
    exact ih (applyOp db op) (stock_nonneg_applyOp db op h)

/-- Witness for C1: a concrete borrow / return / borrow run from a stock-3
book leaves the book at the nonnegative stock 2. -/
theorem stock_nonneg_invariant_witness :
    0 ≤ ({ bkHobbit with stock := 2 } : Book).stock :=
  stock_nonneg_invariant [Op.borrow 1 2 0, Op.ret 1 2 1, Op.borrow 3 2 2] dbC10
    (by decide) { bkHobbit with stock := 2 } (by decide)

/-- C2: when the book exists (the filtered rows are nonempty) and the first
stock of the first row is below 1, `borrow_book` fails with the out-of-stock message and
returns the state unchanged: no book row and no borrow record is touched. -/
theorem borrow_book_outOfStock_no_mutation (db : DB) (mid bid : Nat) (now : Int)
    (b : Book) (l : List Book)
    (hb : db.books.filter (fun c => c.book_id == bid) = b :: l)
    (hs : b.stock < 1) :
    borrow_book mid bid now db = ("Book not available.", db) := by
  simp only [borrow_book, hb]
  rw [if_pos hs]

/-- Witness for C2 at a concrete state: one book with stock 0. -/
theorem borrow_book_outOfStock_no_mutation_witness :
    borrow_book 7 1 0 dbC2 = ("Book not available.", dbC2) :=
  borrow_book_outOfStock_no_mutation dbC2 7 1 0 bkDune [] (by decide) (by decide)

/-- C4: when no active borrow record matches `(member_id, book_id)`,
`return_book` fails with the not-found message and returns the state
unchanged. -/
theorem return_book_notFound_no_mutation (db : DB) (mid bid : Nat) (now : Int)
    (h : db.records.filter
        (fun r => r.member_id == mid && r.book_id == bid && r.return_date.isNone) = []) :
    return_book mid bid now db = ("No active borrow record found.", db) := by
  simp only [return_book, h]

/-- Witness for C4 at a concrete state: the only record for the pair is
already returned. -/
theorem return_book_notFound_no_mutation_witness :
    return_book 1 2 9 dbC4 = ("No active borrow record found.", dbC4) :=
  return_book_notFound_no_mutation dbC4 1 2 9 (by decide)

/-- C5: a member or book referenced by an active borrow record cannot be
deleted — the delete returns the blocked message and leaves the whole state
unchanged; once no active record references it, the same delete succeeds,
returning the removed rows and removing them, touching nothing else. -/
theorem delete_blocked_iff_active_loan :
    (∀ (db : DB) (mid : Nat),
      (∃ r ∈ db.records, r.member_id = mid ∧ r.return_date = none) →
      delete_member mid db =
        (.blocked ("Cannot delete: member " ++ toString mid ++ " has borrowed books."), db)) ∧
    (∀ (db : DB) (mid : Nat),
      (∀ r ∈ db.records, r.member_id = mid → r.return_date ≠ none) →
      delete_member mid db =
        (.deleted (db.members.filter (fun m => m.member_id == mid)),
         { db with members := db.members.filter (fun m => !(m.member_id == mid)) })) ∧
    (∀ (db : DB) (bid : Nat),
      (∃ r ∈ db.records, r.book_id = bid ∧ r.return_date = none) →
      delete_book bid db =
        (.blocked ("Cannot delete: book " ++ toString bid ++ " is currently borrowed."), db)) ∧
    (∀ (db : DB) (bid : Nat),
      (∀ r ∈ db.records, r.book_id = bid → r.return_date ≠ none) →
      delete_book bid db =
        (.deleted (db.books.filter (fun b => b.book_id == bid)),
         { db with books := db.books.filter (fun b => !(b.book_id == bid)) })) := by
  refine ⟨?_, ?_, ?_, ?_⟩
  · intro db mid hex
    obtain ⟨r, hr, hmid, hret⟩ := hex
    have hmem : r ∈ db.records.filter (fun r => r.member_id == mid && r.return_date.isNone) :=
      List.mem_filter.mpr ⟨hr, by simp [hmid, hret]⟩
    unfold delete_member
    split
    · rfl
    next hnil => rw [hnil] at hmem; exact absurd hmem (List.not_mem_nil r)
  · intro db mid hall
    have hnil : db.records.filter (fun r => r.member_id == mid && r.return_date.isNone) = [] := by
      refine List.filter_eq_nil_iff.mpr fun r hr => ?_
      simp only [Bool.and_eq_true, beq_iff_eq, Option.isNone_iff_eq_none, not_and]
      exact fun h1 => hall r hr h1
    simp only [delete_member, hnil]
  · intro db bid hex
    obtain ⟨r, hr, hbid, hret⟩ := hex
    have hmem : r ∈ db.records.filter (fun r => r.book_id == bid && r.return_date.isNone) :=
      List.mem_filter.mpr ⟨hr, by simp [hbid, hret]⟩
    unfold delete_book
    split
    · rfl
    next hnil => rw [hnil] at hmem; exact absurd hmem (List.not_mem_nil r)
  · intro db bid hall
    have hnil : db.records.filter (fun r => r.book_id == bid && r.return_date.isNone) = [] := by
      refine List.filter_eq_nil_iff.mpr fun r hr => ?_
      simp only [Bool.and_eq_true, beq_iff_eq, Option.isNone_iff_eq_none, not_and]
      exact fun h1 => hall r hr h1
    simp only [delete_book, hnil]

/-- A map whose function fixes every element of the list is the identity. -/
lemma map_eq_self {α : Type} {f : α → α} {l : List α} (h : ∀ a ∈ l, f a = a) :
    l.map f = l := by
  induction l with
  | nil => rfl
  | cons x xs ih =>
    rw [List.map_cons, h x (List.mem_cons_self x xs),
      ih fun a ha => h a (List.mem_cons_of_mem x ha)]

/-- Filtering by `book_id` commutes with a per-row update that preserves
`book_id`. -/
lemma filter_bookid_map (books : List Book) (bid : Nat) (g : Book → Book)
    (hg : ∀ c, (g c).book_id = c.book_id) :
    (books.map g).filter (fun c => c.book_id == bid) =
      (books.filter (fun c => c.book_id == bid)).map g := by
  induction books with
  | nil => rfl
  | cons c cs ih =>
    simp only [List.map_cons, List.filter_cons, hg c]
    cases h : (c.book_id == bid) with
    | true => simp [ih]
    | false => simp [ih]


/-- Witness for C5 at concrete states: both deletes are blocked while the
loan is active, and both succeed once it is returned. -/
theorem delete_blocked_iff_active_loan_witness :
    delete_member 1 dbC5 =
      (.blocked ("Cannot delete: member " ++ toString 1 ++ " has borrowed books."), dbC5) ∧
    delete_member 1 dbC5ret =
      (.deleted (dbC5ret.members.filter (fun m => m.member_id == 1)),
       { dbC5ret with members := dbC5ret.members.filter (fun m => !(m.member_id == 1)) }) ∧
    delete_book 2 dbC5 =
      (.blocked ("Cannot delete: book " ++ toString 2 ++ " is currently borrowed."), dbC5) ∧
    delete_book 2 dbC5ret =
      (.deleted (dbC5ret.books.filter (fun b => b.book_id == 2)),
       { dbC5ret with books := dbC5ret.books.filter (fun b => !(b.book_id == 2)) }) :=
  ⟨delete_blocked_iff_active_loan.1 dbC5 1 (by decide),
   delete_blocked_iff_active_loan.2.1 dbC5ret 1 (by decide),
   delete_blocked_iff_active_loan.2.2.1 dbC5 2 (by decide),
   delete_blocked_iff_active_loan.2.2.2 dbC5ret 2 (by decide)⟩

/-- C3: from a state where the unique row of the book has stock at least 1, the
pair has no active loan, and stored record ids are all below the next store-generated
id, `borrow_book` followed by `return_book` succeeds, restores the book table
exactly (so the stock is back at its pre-borrow value), leaves the member
table alone, and appends exactly one borrow record — the one created by the
borrow, now marked returned (`return_date` went from null to the return
time) — with all pre-existing borrow records unchanged. -/
theorem borrow_then_return_roundtrip (db : DB) (mid bid : Nat) (t1 t2 : Int) (b : Book)
    (hb : db.books.filter (fun c => c.book_id == bid) = [b])
    (hs : 1 ≤ b.stock)
    (hact : db.records.filter
        (fun r => r.member_id == mid && r.book_id == bid && r.return_date.isNone) = [])
    (hfresh : ∀ r ∈ db.records, r.record_id ≠ db.nextRecordId) :
    (return_book mid bid t2 (borrow_book mid bid t1 db).2).1 =
      "Book " ++ toString bid ++ " returned by member " ++ toString mid ++ "." ∧
    (return_book mid bid t2 (borrow_book mid bid t1 db).2).2.books = db.books ∧
    (return_book mid bid t2 (borrow_book mid bid t1 db).2).2.members = db.members ∧
    (return_book mid bid t2 (borrow_book mid bid t1 db).2).2.records =
      db.records ++ [{ record_id := db.nextRecordId, member_id := mid, book_id := bid,
                       borrow_date := t1, return_date := some t2 }] := by
  have hbmem : b ∈ db.books.filter (fun c => c.book_id == bid) := by
    rw [hb]; exact List.mem_cons_self b []
  have hpb : (b.book_id == bid) = true := (List.mem_filter.mp hbmem).2
  have hdb1 : (borrow_book mid bid t1 db).2 =
      { db with
        books := db.books.map
          (fun c => if c.book_id == bid then { c with stock := b.stock - 1 } else c),
        records := db.records ++
          [{ record_id := db.nextRecordId, member_id := mid, book_id := bid,
             borrow_date := t1, return_date := none }],
        nextRecordId := db.nextRecordId + 1 } := by
    simp only [borrow_book, hb]
    rw [if_neg (not_lt.mpr hs)]
  rw [hdb1]
  have hgid : ∀ c : Book,
      ((fun c => if c.book_id == bid then { c with stock := b.stock - 1 } else c) c).book_id
        = c.book_id := by
    intro c
    by_cases h : (c.book_id == bid) = true
    · simp only [if_pos h]
    · simp only [if_neg h]
  have eqRec : (db.records ++
        [({ record_id := db.nextRecordId, member_id := mid, book_id := bid,
            borrow_date := t1, return_date := none } : BorrowRecord)]).filter
        (fun r => r.member_id == mid && r.book_id == bid && r.return_date.isNone) =
      [({ record_id := db.nextRecordId, member_id := mid, book_id := bid,
          borrow_date := t1, return_date := none } : BorrowRecord)] := by
    rw [List.filter_append, hact, List.nil_append]
    simp [List.filter]
  have eqBooks : (db.books.map
        (fun c => if c.book_id == bid then { c with stock := b.stock - 1 } else c)).filter
        (fun c => c.book_id == bid) = [{ b with stock := b.stock - 1 }] := by
    rw [filter_bookid_map db.books bid _ hgid, hb, List.map_cons, List.map_nil]
    simp only [if_pos hpb]
  simp only [return_book, eqRec, eqBooks]
  refine ⟨trivial, ?_, trivial, ?_⟩
  · rw [List.map_map]
    refine map_eq_self fun c hc => ?_
    simp only [Function.comp_apply]
    by_cases h : (c.book_id == bid) = true
    · have hcb : c = b := by
        have hcf : c ∈ db.books.filter (fun c => c.book_id == bid) :=
          List.mem_filter.mpr ⟨hc, h⟩
        rw [hb] at hcf
        simpa using hcf
      subst hcb
      simp only [if_pos h]
      have hstk : c.stock - 1 + 1 = c.stock := by omega
      rw [hstk]
    · simp only [if_neg h]
  · rw [List.map_append]
    have h1 : db.records.map
        (fun q => if q.record_id == db.nextRecordId
          then { q with return_date := some t2 } else q) = db.records :=
      map_eq_self fun r hr => if_neg (by simpa using hfresh r hr)
    rw [h1, List.map_cons, List.map_nil]
    simp

/-- Witness for C3: borrowing and returning book 2 from the stock-3 state
restores the state and leaves one returned record. -/
theorem borrow_then_return_roundtrip_witness :
    (return_book 1 2 9 (borrow_book 1 2 4 dbC10).2).1 =
      "Book " ++ toString 2 ++ " returned by member " ++ toString 1 ++ "." ∧
    (return_book 1 2 9 (borrow_book 1 2 4 dbC10).2).2.books = dbC10.books ∧
    (return_book 1 2 9 (borrow_book 1 2 4 dbC10).2).2.members = dbC10.members ∧
    (return_book 1 2 9 (borrow_book 1 2 4 dbC10).2).2.records =
      dbC10.records ++ [{ record_id := dbC10.nextRecordId, member_id := 1, book_id := 2,
                          borrow_date := 4, return_date := some 9 }] :=
  borrow_then_return_roundtrip dbC10 1 2 4 9 bkHobbit (by decide) (by decide) (by decide)
    (by decide)

/-- C9: `borrow_book` never consults the member table: for every `member_id`
whatsoever (the member list of the state is arbitrary and unconstrained), as soon
as the book lookup succeeds and the stock of the first row is at least 1, the call
returns the success message and appends an active borrow record carrying that
`member_id`. -/
theorem borrow_book_no_member_check (db : DB) (mid bid : Nat) (now : Int)
    (b : Book) (l : List Book)
    (hb : db.books.filter (fun c => c.book_id == bid) = b :: l)
    (hs : 1 ≤ b.stock) :
    (borrow_book mid bid now db).1 =
      "Book " ++ toString bid ++ " borrowed by member " ++ toString mid ++ "." ∧
    (borrow_book mid bid now db).2.records =
      db.records ++ [{ record_id := db.nextRecordId, member_id := mid, book_id := bid,
                       borrow_date := now, return_date := none }] := by
  simp only [borrow_book, hb]
  rw [if_neg (not_lt.mpr hs)]
  exact ⟨rfl, rfl⟩

/-- Witness for C9: member 42 matches no row of the (empty) member table, yet
the borrow succeeds and inserts a record with member_id 42. -/
theorem borrow_book_no_member_check_witness :
    (borrow_book 42 2 0 dbC10).1 =
      "Book " ++ toString 2 ++ " borrowed by member " ++ toString 42 ++ "." ∧
    (borrow_book 42 2 0 dbC10).2.records =
      dbC10.records ++ [{ record_id := dbC10.nextRecordId, member_id := 42, book_id := 2,
                          borrow_date := 0, return_date := none }] :=
  borrow_book_no_member_check dbC10 42 2 0 bkHobbit [] (by decide) (by decide)

/-- Bumping a key increments exactly its own count. -/
lemma cnt_bump_same (m : List (Nat × Nat)) (k : Nat) : cnt (bump m k) k = cnt m k + 1 := by
  induction m with
  | nil => simp [bump, cnt]
  | cons p ps ih =>
    obtain ⟨a, c⟩ := p
    by_cases h : (a == k) = true
    · simp [bump, cnt, h]
    · simp [bump, cnt, h, ih]

/-- Bumping a key leaves every other count unchanged. -/
lemma cnt_bump_other (m : List (Nat × Nat)) (k k' : Nat) (h : k' ≠ k) :
    cnt (bump m k) k' = cnt m k' := by
  induction m with
  | nil =>
    have : (k == k') = false := by simpa using fun hh => h hh.symm
    simp [bump, cnt, this]
  | cons p ps ih =>
    obtain ⟨a, c⟩ := p
    by_cases ha : (a == k) = true
    · have hak : a = k := by simpa using ha
      have hk2 : ¬ a = k' := by rw [hak]; exact fun hh => h hh.symm
      simp [bump, cnt, ha, hk2]
    · simp [bump, cnt, ha, ih]

/-- The keys of the counting dict after a bump: unchanged when the key was
present, appended otherwise. -/
lemma keys_bump (m : List (Nat × Nat)) (k : Nat) :
    (bump m k).map Prod.fst =
      if k ∈ m.map Prod.fst then m.map Prod.fst else m.map Prod.fst ++ [k] := by
  induction m with
  | nil => simp [bump]
  | cons p ps ih =>
    obtain ⟨a, c⟩ := p
    by_cases h : (a == k) = true
    · have hak : a = k := by simpa using h
      simp [bump, h, hak]
    · have hak : ¬ k = a := by simpa using fun hh => h (by simpa using hh.symm)
      by_cases hk : k ∈ ps.map Prod.fst
      · simp [bump, h, ih, hk, hak]
      · simp [bump, h, ih, hk, hak]

/-- Bumping preserves distinctness of the dict keys. -/
lemma keys_bump_nodup (m : List (Nat × Nat)) (k : Nat)
    (h : (m.map Prod.fst).Nodup) : ((bump m k).map Prod.fst).Nodup := by
  rw [keys_bump]
  by_cases hk : k ∈ m.map Prod.fst
  · simpa [hk] using h
  · simp only [if_neg hk]
    exact h.append (List.nodup_singleton k) (fun a ha hb => hk ((List.mem_singleton.mp hb) ▸ ha))

/-- Folding the counting step over records adds each record to the count of its key. -/
lemma cnt_foldl (recs : List BorrowRecord) :
    ∀ (m : List (Nat × Nat)) (k : Nat),
      cnt (recs.foldl (fun acc r => bump acc r.book_id) m) k =
        cnt m k + recs.countP (fun r => r.book_id == k) := by
  induction recs with
  | nil => intro m k; simp
  | cons r rs ih =>
    intro m k
    rw [List.foldl_cons, ih, List.countP_cons]
    by_cases h : (r.book_id == k) = true
    · have hk : r.book_id = k := by simpa using h
      rw [hk, cnt_bump_same]
      simp [h]
      omega
    · have hk : k ≠ r.book_id := fun hh => h (by simpa using hh.symm)
      rw [cnt_bump_other m r.book_id k hk]
      simp [h]

/-- The keys of the accumulated counting dict stay distinct through the fold. -/
lemma keys_foldl_nodup (recs : List BorrowRecord) :
    ∀ (m : List (Nat × Nat)), (m.map Prod.fst).Nodup →
      ((recs.foldl (fun acc r => bump acc r.book_id) m).map Prod.fst).Nodup := by
  induction recs with
  | nil => intro m h; simpa using h
  | cons r rs ih =>
    intro m h
    rw [List.foldl_cons]
    exact ih _ (keys_bump_nodup m r.book_id h)

/-- The dict built by `countsOf` stores, for each key, the number of borrow
records with that `book_id`. -/
lemma countsOf_cnt (recs : List BorrowRecord) (k : Nat) :
    cnt (countsOf recs) k = recs.countP (fun r => r.book_id == k) := by
  have h := cnt_foldl recs [] k
  simpa [countsOf, cnt] using h

/-- The keys of `countsOf` are distinct. -/
lemma countsOf_keys_nodup (recs : List BorrowRecord) :
    ((countsOf recs).map Prod.fst).Nodup :=
  keys_foldl_nodup recs [] (by simp)

/-- In a dict with distinct keys, membership determines the stored count. -/
lemma cnt_of_mem (m : List (Nat × Nat)) (hnd : (m.map Prod.fst).Nodup)
    (k c : Nat) (hm : (k, c) ∈ m) : cnt m k = c := by
  induction m with
  | nil => cases hm
  | cons p ps ih =>
    obtain ⟨a, c'⟩ := p
    rw [List.map_cons, List.nodup_cons] at hnd
    rcases List.mem_cons.mp hm with heq | hmem
    · obtain ⟨hk, hc⟩ := Prod.mk.injEq .. ▸ heq
      simp [cnt, hk.symm, hc]
    · have ha : (a == k) = false := by
        refine Bool.eq_false_iff.mpr fun hh => ?_
        have : a = k := by simpa using hh
        subst this
        exact hnd.1 (List.mem_map.mpr ⟨(a, c), hmem, rfl⟩)
      simp only [cnt, ha, if_false]
      exact ih hnd.2 hmem

/-- Each entry of `countsOf` counts all borrow records (active or returned)
with its `book_id`. -/
lemma mem_countsOf (recs : List BorrowRecord) (k c : Nat)
    (h : (k, c) ∈ countsOf recs) :
    c = recs.countP (fun r => r.book_id == k) := by
  rw [← countsOf_cnt]
  exact (cnt_of_mem _ (countsOf_keys_nodup recs) k c h).symm

/-- A successful fetch keeps the counts componentwise. -/
lemma fetchBooks_seconds (db : DB) :
    ∀ (xs : List (Nat × Nat)) (l : List (Book × Nat)), fetchBooks db xs = some l →
      l.map Prod.snd = xs.map Prod.snd := by
  intro xs
  induction xs with
  | nil =>
    intro l h
    obtain rfl := Option.some.inj h
    simp
  | cons x rest ih =>
    intro l h
    obtain ⟨bid, c⟩ := x
    simp only [fetchBooks] at h
    split at h
    · exact absurd h (by simp)
    · split at h
      · exact absurd h (by simp)
      next tl hr =>
        obtain rfl := Option.some.inj h
        simpa using ih tl hr

/-- Every fetched entry comes from a ranked pair: its book row was found by
the key of the pair and it carries the count of the pair. -/
lemma fetchBooks_mem (db : DB) :
    ∀ (xs : List (Nat × Nat)) (l : List (Book × Nat)), fetchBooks db xs = some l →
      ∀ p ∈ l, ∃ x ∈ xs,
        db.books.find? (fun b => b.book_id == x.1) = some p.1 ∧ p.2 = x.2 := by
  intro xs
  induction xs with
  | nil =>
    intro l h
    obtain rfl := Option.some.inj h
    intro p hp
    cases hp
  | cons x rest ih =>
    intro l h
    obtain ⟨bid, c⟩ := x
    simp only [fetchBooks] at h
    split at h
    · exact absurd h (by simp)
    next b hf =>
      split at h
      · exact absurd h (by simp)
      next tl hr =>
        obtain rfl := Option.some.inj h
        intro p hp
        rcases List.mem_cons.mp hp with heq | hmem
        · subst heq
          exact ⟨(bid, c), List.mem_cons_self _ _, hf, rfl⟩
        · obtain ⟨y, hy, hfind, hpy⟩ := ih tl hr p hmem
          exact ⟨y, List.mem_cons_of_mem _ hy, hfind, hpy⟩


/-- C6: `top_borrowed_books` over the example records {book 1: 3 borrows,
book 2: 1, book 3: 2} with limit 2 returns [book 1 (3), book 3 (2)] in that
order; and in general every returned list is ordered by count descending,
annotates each book with the number of all borrow records (active and
returned) carrying its `book_id`, and has `min limit (number of distinct
borrowed books)` entries. -/
theorem top_borrowed_books_spec :
    (top_borrowed_books 2 dbC6 = some [(bkDune, 3), (bkC3, 2)]) ∧
    (∀ (db : DB) (limit : Nat) (l : List (Book × Nat)),
      top_borrowed_books limit db = some l →
      List.Pairwise (fun p q : Book × Nat => q.2 ≤ p.2) l ∧
      (∀ p ∈ l, p.2 = db.records.countP (fun r => r.book_id == p.1.book_id)) ∧
      l.length = min limit (countsOf db.records).length) := by
  constructor
  · decide
  · intro db limit l hl
    rw [top_borrowed_books] at hl
    refine ⟨?_, ?_, ?_⟩
    · have hsorted : List.Pairwise cntGE ((countsOf db.records).insertionSort cntGE) :=
        List.sorted_insertionSort cntGE (countsOf db.records)
      have hpw : List.Pairwise cntGE
          (((countsOf db.records).insertionSort cntGE).take limit) :=
        hsorted.sublist (List.take_sublist limit _)
      have hsec := fetchBooks_seconds db _ l hl
      have h1 : List.Pairwise (fun a b : Nat => b ≤ a)
          ((((countsOf db.records).insertionSort cntGE).take limit).map Prod.snd) := by
        rw [List.pairwise_map]
        exact hpw
      rw [← hsec, List.pairwise_map] at h1
      exact h1
    · intro p hp
      obtain ⟨x, hx, hfind, hpx⟩ := fetchBooks_mem db _ l hl p hp
      have hxc : x ∈ countsOf db.records :=
        (List.mem_insertionSort cntGE).mp (List.mem_of_mem_take hx)
      have hcount : x.2 = db.records.countP (fun r => r.book_id == x.1) :=
        mem_countsOf db.records x.1 x.2 hxc
      have hbid : p.1.book_id = x.1 := by
        have := List.find?_some hfind
        simpa using this
      rw [hpx, hcount, hbid]
    · have hsec := fetchBooks_seconds db _ l hl
      have hlen : l.length = (((countsOf db.records).insertionSort cntGE).take limit).length := by
        have := congrArg List.length hsec
        simpa using this
      rw [hlen, List.length_take,
        (List.perm_insertionSort cntGE (countsOf db.records)).length_eq]

/-- Witness for C6: the general part applied to the example state with
limit 2 — the returned list has min 2 3 = 2 entries. -/
theorem top_borrowed_books_spec_witness :
    ([(bkDune, 3), (bkC3, 2)] : List (Book × Nat)).length = min 2 (countsOf dbC6.records).length :=
  (top_borrowed_books_spec.2 dbC6 2 [(bkDune, 3), (bkC3, 2)] (by decide)).2.2


/-- C7 evaluated at the failing input: with a borrow record whose `book_id`
matches no book row, `top_borrowed_books` hits the unguarded `data[0]` and
the uncaught `IndexError` aborts the call (modelled as `none`) instead of
skipping the dangling reference and returning a list. -/
theorem top_borrowed_books_dangling_crashes : top_borrowed_books 5 dbC7 = none := by
  decide

/-- C8: `overdue_members(days)` returns exactly the projections of the active
borrow records with `borrow_date` strictly before `now − days`; consequently
with `days = 0` it returns every active loan whose `borrow_date` precedes
`now`, and with `days = 10000` it returns nothing when every record was
created within the window. -/
theorem overdue_members_spec :
    (∀ (db : DB) (days now : Int) (m b : Nat) (d : Int),
      (m, b, d) ∈ overdue_members days now db ↔
        ∃ r ∈ db.records, r.member_id = m ∧ r.book_id = b ∧ r.borrow_date = d ∧
          r.return_date = none ∧ r.borrow_date < now - days) ∧
    (∀ (db : DB) (now : Int),
      (∀ r ∈ db.records, r.return_date = none → r.borrow_date < now) →
      overdue_members 0 now db =
        (db.records.filter (fun r => r.return_date.isNone)).map
          (fun r => (r.member_id, r.book_id, r.borrow_date))) ∧
    (∀ (db : DB) (now : Int),
      (∀ r ∈ db.records, now - 10000 ≤ r.borrow_date) →
      overdue_members 10000 now db = []) := by
  refine ⟨?_, ?_, ?_⟩
  · intro db days now m b d
    simp only [overdue_members, List.mem_map, List.mem_filter, Bool.and_eq_true,
      Option.isNone_iff_eq_none, decide_eq_true_eq, Prod.mk.injEq]
    constructor
    · rintro ⟨r, ⟨hr, hret, hlt⟩, hm, hb, hd⟩
      exact ⟨r, hr, hm, hb, hd, hret, hlt⟩
    · rintro ⟨r, hr, hm, hb, hd, hret, hlt⟩
      exact ⟨r, ⟨hr, hret, hlt⟩, hm, hb, hd⟩
  · intro db now h
    unfold overdue_members
    congr 1
    refine List.filter_congr fun r hr => ?_
    cases hrd : r.return_date with
    | none =>
      have hlt : r.borrow_date < now := h r hr hrd
      simp only [hrd, Option.isNone_none, Bool.true_and]
      simpa using show r.borrow_date < now - 0 by omega
    | some v => simp [hrd]
  · intro db now h
    unfold overdue_members
    have hnil : db.records.filter
        (fun r => r.return_date.isNone && decide (r.borrow_date < now - 10000)) = [] := by
      refine List.filter_eq_nil_iff.mpr fun r hr => ?_
      have := h r hr
      simp only [Bool.and_eq_true, decide_eq_true_eq, not_and]
      intro _
      omega
    rw [hnil, List.map_nil]


/-- Witness for C8 at concrete inputs: the `days = 0` listing of all active
loans and the empty `days = 10000` report, both at `now = 10`. -/
theorem overdue_members_spec_witness :
    overdue_members 0 10 dbC8 =
      (dbC8.records.filter (fun r => r.return_date.isNone)).map
        (fun r => (r.member_id, r.book_id, r.borrow_date)) ∧
    overdue_members 10000 10 dbC8 = [] :=
  ⟨overdue_members_spec.2.1 dbC8 10 (by decide),
   overdue_members_spec.2.2 dbC8 10 (by decide)⟩

/-- C10: `update_book_stock` performs no validation: it sets every matching
stock of every matching book row to exactly the given integer and touches nothing else, so a
negative argument drives stock below 0 (shown at a concrete state). -/
theorem update_book_stock_no_validation :
    (∀ (db : DB) (bid : Nat) (s : Int),
      (update_book_stock bid s db).2.books =
        db.books.map (fun b => if b.book_id == bid then { b with stock := s } else b) ∧
      (update_book_stock bid s db).2.members = db.members ∧
      (update_book_stock bid s db).2.records = db.records) ∧
    (update_book_stock 2 (-5) dbC10).2.books.find? (fun b => b.book_id == 2) =
      some { bkHobbit with stock := -5 } ∧
    ({ bkHobbit with stock := -5 } : Book).stock < 0 :=
  ⟨fun _ _ _ => ⟨rfl, rfl, rfl⟩, by decide, by decide⟩
